import Mathlib

/-!
Verification of the RPC correlation engine of the RPC-iFrame library.

The definitions below are a shallow embedding of the source files
`src/core/protocol.ts`, `src/core/transport.ts` (the Transport class and the
IframeConnection class) and `src/child.ts` (the IframeExposed class).
JavaScript values carried as call arguments and results are abstracted by a
type parameter `V`.  Stateful code is embedded as explicit step functions on
state records; the observable effects of a step (promise settlements,
`clearTimeout` calls, `transport.send` calls) are returned as a list of
actions.
-/

set_option autoImplicit false

namespace RPCiFrame

/-! ## Protocol codec (src/core/protocol.ts) -/

/-- Brand value `IFC_BRAND` (protocol.ts line 20) carried by every message of
the library in its `__ifc` field. -/
def IFC_BRAND : String := "__ifc__"

/-- Wire messages, the discriminated union on the `type` field
(protocol.ts lines 31-66).  The `unknownType` constructor stands for a
branded object whose `type` field is none of the five known tags:
`isProtocolMessage` never inspects `type`, so such data reaches the handlers,
whose `switch` statements fall through to the default (ignore) branch. -/
inductive ProtocolMessage (V : Type) where
  | handshakeRequest (nonce : String)
  | handshakeResponse (nonce : String)
  | request (id : String) (method : String) (args : List V)
  | response (id : String) (result : V)
  | error (id : String) (errorText : String)
  | unknownType (tag : String)
  deriving DecidableEq

/-- View of an arbitrary value arriving on the platform channel, as far as the
library inspects it: whether it is a non-null object, the value of its `__ifc`
field when present, and its protocol-relevant content.  For data that is not a
protocol message the `msg` field is irrelevant junk that nothing trusts. -/
structure RawDatum (V : Type) where
  isObj : Bool
  brand : Option String
  msg : ProtocolMessage V
  deriving DecidableEq

/-- Embedding of `isProtocolMessage` (protocol.ts lines 73-79):
`typeof data === "object" && data !== null && data.__ifc === IFC_BRAND`. -/
def isProtocolMessage {V : Type} (d : RawDatum V) : Bool :=
  d.isObj && d.brand == some IFC_BRAND

/-- Every message built by the factories of protocol.ts (lines 85-103) is a
non-null object carrying the brand; this wraps a message the way the wire
carries it. -/
def brandedDatum {V : Type} (m : ProtocolMessage V) : RawDatum V :=
  { isObj := true, brand := some IFC_BRAND, msg := m }

/-! ## Channel adapter (src/core/transport.ts, class Transport) -/

/-- Embedding of the listener built in the Transport constructor
(transport.ts lines 40-48), up to the fan-out: the `(message, origin)` pair
handed to every subscriber callback, or `none` when the event is dropped.
The origin check is the first `if` and returns before the data is inspected;
the shape check `isProtocolMessage` is the second. -/
def Transport.accepted {V : Type} (targetOrigin : String) (origin : String)
    (d : RawDatum V) : Option (ProtocolMessage V × String) :=
  if targetOrigin != "*" && origin != targetOrigin then none
  else if !(isProtocolMessage d) then none
  else some (d.msg, origin)

/-- Fan-out of the Transport listener (transport.ts lines 45-47): every
subscribed callback receives the accepted message.  `C` is the type of
callback identities; the result lists the invocations performed, in order. -/
def Transport.deliver {V C : Type} (targetOrigin : String) (callbacks : List C)
    (origin : String) (d : RawDatum V) : List (C × ProtocolMessage V × String) :=
  match Transport.accepted targetOrigin origin d with
  | none => []
  | some p => callbacks.map (fun cb => (cb, p.1, p.2))

/-! ## Callee dispatcher (src/child.ts, class IframeExposed) -/

/-- Value thrown (or used to reject) by an exposed operation.  `errObj` models
a JavaScript `Error` instance, carrying both its `message` and its `stack`;
`nonErr` models any other thrown value, carrying the string that
`String(err)` converts it to. -/
inductive Thrown (V : Type) where
  | errObj (message : String) (stack : String)
  | nonErr (text : String)

/-- Conversion performed at child.ts line 128:
`err instanceof Error ? err.message : String(err)`.  Note that the `stack`
field of an `errObj` is never consulted. -/
def Thrown.toText {V : Type} : Thrown V → String
  | .errObj message _ => message
  | .nonErr text => text

/-- One value of the caller-supplied api object: either a function — embedded
as a map from the argument list to either the awaited result or the thrown or
rejected value — or a non-function value. -/
inductive ApiEntry (V : Type) where
  | fn (f : List V → Except (Thrown V) V)
  | val (v : V)

/-- Lookup by key in an association list.  Used for the own properties of the
api object and for the pending-calls `Map` of the caller engine
(`Map.prototype.get`). -/
def findCall {A : Type} (id : String) : List (String × A) → Option A
  | [] => none
  | p :: rest => if p.1 = id then some p.2 else findCall id rest

/-- Removal by key from an association list (`Map.prototype.delete`). -/
def dropCall {A : Type} (id : String) : List (String × A) → List (String × A)
  | [] => []
  | p :: rest => if p.1 = id then dropCall id rest else p :: dropCall id rest

/-- Insertion by key into an association list (`Map.prototype.set`). -/
def setCall {A : Type} (id : String) (v : A) (m : List (String × A)) : List (String × A) :=
  (id, v) :: dropCall id m

/-- The api object passed to `expose` / `new IframeExposed`: its directly
declared (own) properties, as an association list from property name to
entry. -/
structure ApiObject (V : Type) where
  own : List (String × ApiEntry V)

/-- Model of the inherited members that every plain JavaScript object resolves
through its prototype chain (`Object.prototype` and the like).  These are not
source definitions of this repository: they stand for the host-language
environment that the own-property guard in `dispatchRequest` defends against.
Their exact behaviour is irrelevant; only their reachability matters. -/
def protoProps (V : Type) : List (String × ApiEntry V) :=
  [("constructor", .fn (fun _ => Except.error (.nonErr "[native constructor]"))),
   ("toString", .fn (fun _ => Except.error (.nonErr "[native toString]"))),
   ("hasOwnProperty", .fn (fun _ => Except.error (.nonErr "[native hasOwnProperty]")))]

/-- Embedding of the guard `Object.prototype.hasOwnProperty.call(this.api,
method)` (child.ts line 113): only directly declared entries count. -/
def hasOwnProp {V : Type} (api : ApiObject V) (k : String) : Bool :=
  (findCall k api.own).isSome

/-- Embedding of the property access `this.api[method]` (child.ts line 118)
under JavaScript lookup semantics: own properties first, then the prototype
chain; `none` is `undefined`. -/
def getProp {V : Type} (api : ApiObject V) (k : String) : Option (ApiEntry V) :=
  match findCall k api.own with
  | some e => some e
  | none => findCall k (protoProps V)

/-- Error text built at child.ts line 114. -/
def notExposedText (method : String) : String :=
  "Method \"" ++ method ++ "\" is not exposed."

/-- Error text built at child.ts line 120. -/
def notFnText (method : String) : String :=
  "\"" ++ method ++ "\" is not a function."

/-- Embedding of `IframeExposed.dispatchRequest` (child.ts lines 107-131).
The first component lists the messages passed to `transport.send`, in order;
the second lists the invocations `fn.apply(this.api, args)` performed.  The
wildcard branch of the inner match is exactly the check
`typeof fn !== "function"` (child.ts line 119): it covers both a non-function
own value and `undefined`. -/
def IframeExposed.dispatchRequest {V : Type} (api : ApiObject V) (id : String)
    (method : String) (args : List V) :
    List (ProtocolMessage V) × List (String × List V) :=
  if !(hasOwnProp api method) then
    ([.error id (notExposedText method)], [])
  else
    match getProp api method with
    | some (.fn f) =>
      match f args with
      | .ok result => ([.response id result], [(method, args)])
      | .error err => ([.error id err.toText], [(method, args)])
    | _ => ([.error id (notFnText method)], [])

/-- Embedding of `IframeExposed.handleMessage` (child.ts lines 83-95):
a `handshake-request` is answered with a `handshake-response` echoing the same
nonce verbatim, a `request` is dispatched, and every other message type falls
through the `switch` with no effect. -/
def IframeExposed.handleMessage {V : Type} (api : ApiObject V)
    (m : ProtocolMessage V) : List (ProtocolMessage V) × List (String × List V) :=
  match m with
  | .handshakeRequest nonce => ([.handshakeResponse nonce], [])
  | .request id method args => IframeExposed.dispatchRequest api id method args
  | _ => ([], [])

/-! ## Caller engine (src/core/transport.ts, class IframeConnection) -/

/-- Settlement of the promise returned by one proxy call, as observed by the
caller: `resolve(value)` or `reject(new Error(text))`.  Every rejection in the
parent-side code constructs `new Error(text)`, so the text determines it. -/
inductive Settlement (V : Type) where
  | resolved (value : V)
  | rejected (text : String)
  deriving DecidableEq

/-- Timeout rejection text built inside `createProxy`
(transport.ts line 310). -/
def timeoutText (method : String) (ms : Nat) : String :=
  "Call to \"" ++ method ++ "\" timed out after " ++ toString ms ++ "ms."

/-- Rejection text used by `destroy` (transport.ts line 330). -/
def destroyedText : String := "Connection destroyed."

/-- Default of the destructuring `callTimeout = 10_000` in
`IframeConnection.connect` (transport.ts line 192). -/
def defaultCallTimeout : Nat := 10000

/-- Default of the destructuring `handshakeTimeout = 5_000` in
`IframeConnection.connect` (transport.ts line 191). -/
def defaultHandshakeTimeout : Nat := 5000

/-- Observable side effects of one step of the caller engine: settling a
pending call by id, a `clearTimeout` on the timer of a call, and a
`transport.send`. -/
inductive Action (V : Type) where
  | settle (id : String) (s : Settlement V)
  | cancelTimer (id : String)
  | send (m : ProtocolMessage V)
  deriving DecidableEq

/-- State of one `IframeConnection` after a successful handshake:
`pendingCalls` maps each in-flight call id to the method name captured by its
timeout closure (transport.ts line 153; the entry also stands for the armed
per-call timer, since the code creates them together at lines 306-315 and
clears them together at lines 284-285, 307, 329-330 and 332); `subscribed`
records whether the subscription of line 167 is still in place, `adapterAlive`
whether the Transport is still listening — both are torn down only by
`destroy` (lines 333-334). -/
structure CallerState (V : Type) where
  pendingCalls : List (String × String)
  subscribed : Bool
  adapterAlive : Bool
  deriving DecidableEq

/-- Embedding of `IframeConnection.settlePendingCall` (transport.ts lines
280-287): extract and clean up a pending call by id — clear its timer, delete
the entry — or return `none` when no call with that id exists. -/
def IframeConnection.settlePendingCall {V : Type} (id : String) (s : CallerState V) :
    Option String × CallerState V :=
  match findCall id s.pendingCalls with
  | none => (none, s)
  | some method => (some method, { s with pendingCalls := dropCall id s.pendingCalls })

/-- Embedding of `IframeConnection.handleMessage` (transport.ts lines
255-269): a `response` resolves the matching pending call, an `error` rejects
it with an error built from the message text, and every other type falls
through the `switch` with no effect.  The `cancelTimer` action records the
`clearTimeout` performed inside `settlePendingCall`. -/
def IframeConnection.handleMessage {V : Type} (s : CallerState V)
    (m : ProtocolMessage V) : CallerState V × List (Action V) :=
  match m with
  | .response id result =>
    match IframeConnection.settlePendingCall id s with
    | (none, _) => (s, [])
    | (some _, s1) => (s1, [.cancelTimer id, .settle id (.resolved result)])
  | .error id err =>
    match IframeConnection.settlePendingCall id s with
    | (none, _) => (s, [])
    | (some _, s1) => (s1, [.cancelTimer id, .settle id (.rejected err)])
  | _ => (s, [])

/-- Events driving one established connection: an inbound platform message
event, the invocation of a proxy method (carrying the id that `generateId`
produced for it), the firing of the timeout timer of one call, and a call of
`destroy()`. -/
inductive CEvent (V : Type) where
  | recv (origin : String) (d : RawDatum V)
  | call (id : String) (method : String) (args : List V)
  | timerFire (id : String)
  | destroy
  deriving DecidableEq

/-- Whether an event is the issuing of a call with the given id. -/
def isCallFor {V : Type} (id : String) : CEvent V → Bool
  | .call j _ _ => j == id
  | _ => false

/-- Whether an event is a `destroy()` call. -/
def isDestroyEvent {V : Type} : CEvent V → Bool
  | .destroy => true
  | _ => false

/-- One step of an established connection.

* `recv`: the platform event first passes the Transport filter (transport.ts
  lines 41-43); if the subscription has been removed — `unsubscribe()` at
  line 333 together with `transport.destroy()` at line 334 — nothing runs;
  otherwise `IframeConnection.handleMessage` processes the message.
* `call`: the body of the closure returned by the proxy get trap
  (transport.ts lines 302-317): arm the per-call timer, record the
  PendingCall under the fresh id, send `Request{id, method, args}`.
* `timerFire`: the timeout callback of lines 306-313: delete the entry and
  reject with the timeout text.  A cleared timer cannot fire, and the code
  clears the timer exactly when it removes the entry, so the `none` branch
  (no such entry, hence no such timer) is a no-op.
* `destroy`: transport.ts lines 327-335: for every pending call clear its
  timer and reject it, then clear the mapping, unsubscribe, and destroy the
  adapter. -/
def IframeConnection.step {V : Type} (callTimeout : Nat) (targetOrigin : String)
    (s : CallerState V) (e : CEvent V) : CallerState V × List (Action V) :=
  match e with
  | .recv origin d =>
    if s.subscribed then
      match Transport.accepted targetOrigin origin d with
      | some p => IframeConnection.handleMessage s p.1
      | none => (s, [])
    else (s, [])
  | .call id method args =>
    ({ s with pendingCalls := setCall id method s.pendingCalls },
     [.send (.request id method args)])
  | .timerFire id =>
    match findCall id s.pendingCalls with
    | some method =>
      ({ s with pendingCalls := dropCall id s.pendingCalls },
       [.settle id (.rejected (timeoutText method callTimeout))])
    | none => (s, [])
  | .destroy =>
    ({ pendingCalls := [], subscribed := false, adapterAlive := false },
     s.pendingCalls.flatMap
       (fun p => [.cancelTimer p.1, .settle p.1 (.rejected destroyedText)]))

/-- Run of a sequence of events from a state, collecting all actions. -/
def IframeConnection.run {V : Type} (callTimeout : Nat) (targetOrigin : String)
    (s : CallerState V) : List (CEvent V) → CallerState V × List (Action V)
  | [] => (s, [])
  | e :: tr =>
    let p := IframeConnection.step callTimeout targetOrigin s e
    let q := IframeConnection.run callTimeout targetOrigin p.1 tr
    (q.1, p.2 ++ q.2)

/-- The settlements an action list performs on the call with the given id. -/
def settlementsFor {V : Type} (id : String) (acts : List (Action V)) :
    List (Settlement V) :=
  acts.filterMap (fun a =>
    match a with
    | .settle j st => if j = id then some st else none
    | _ => none)

/-- Classification of an event as one of the three settlement sources for the
call with id `id` whose timeout closure captured `method`: an accepted
Response bearing that id, an accepted ErrorMessage bearing that id, or the
firing of the timer of that very call.  `none` means the event cannot settle
that call. -/
def matchOutcome {V : Type} (callTimeout : Nat) (targetOrigin : String)
    (method : String) (id : String) (e : CEvent V) : Option (Settlement V) :=
  match e with
  | .recv origin d =>
    match Transport.accepted targetOrigin origin d with
    | some (.response j result, _) =>
      if j = id then some (.resolved result) else none
    | some (.error j err, _) => if j = id then some (.rejected err) else none
    | _ => none
  | .timerFire j =>
    if j = id then some (.rejected (timeoutText method callTimeout)) else none
  | _ => none

/-! ## Proxy get trap (transport.ts, IframeConnection.createProxy) -/

/-- Property key reaching the get trap of the proxy: a string or a symbol
(symbols are distinguished by an arbitrary index). -/
inductive PropKey where
  | str (name : String)
  | sym (n : Nat)
  deriving DecidableEq

/-- What the closure returned by the proxy get trap does when invoked with an
argument list: it performs the RPC call described by this record (the
`CEvent.call` step, with a freshly generated id). -/
structure CallSpec (V : Type) where
  method : String
  args : List V
  deriving DecidableEq

/-- Embedding of the get trap of `IframeConnection.createProxy`
(transport.ts lines 297-320): a non-string key yields `undefined` (`none`);
any string key — with no filtering whatsoever — yields a function of the call
arguments, namely the closure that performs the RPC call for that property
name. -/
def IframeConnection.createProxyGet (V : Type) (key : PropKey) :
    Option (List V → CallSpec V) :=
  match key with
  | .sym _ => none
  | .str name => some (fun args => { method := name, args := args })

/-! ## Handshake state machine (transport.ts, IframeConnection.connect) -/

/-- State of the promise executor of `IframeConnection.connect`
(transport.ts lines 195-248): the `handshakeComplete` flag, whether the
handshake listener of line 226 is still subscribed, whether the handshake
timer of line 212 is still armed, and whether the Transport is still
listening. -/
structure HandshakeState where
  handshakeComplete : Bool
  subscribed : Bool
  timerActive : Bool
  adapterAlive : Bool
  deriving DecidableEq

/-- State right after `connect` created the Transport, armed the handshake
timer and subscribed the handshake listener. -/
def handshakeStart : HandshakeState :=
  { handshakeComplete := false, subscribed := true, timerActive := true,
    adapterAlive := true }

/-- Events driving the handshake phase: an inbound platform message event and
the firing of the handshake timer. -/
inductive HEvent (V : Type) where
  | recv (origin : String) (d : RawDatum V)
  | timerFire
  deriving DecidableEq

/-- Settlement of the promise returned by `IframeConnection.connect`:
resolution with the live connection handle, or rejection with
`new Error(text)`. -/
inductive ConnectOutcome where
  | resolvedConn
  | rejectedConn (text : String)
  deriving DecidableEq

/-- Rejection text built at transport.ts line 218. -/
def handshakeTimeoutText (ms : Nat) : String :=
  "Handshake timed out after " ++ toString ms ++ "ms."

/-- One step of the handshake phase.

* `recv`: the event passes the Transport filter; the handshake listener
  (transport.ts lines 226-241) reacts only to a `handshake-response` whose
  nonce equals the generated one while `handshakeComplete` is still false; it
  then sets the flag, clears the timer, unsubscribes itself and resolves the
  connect promise.  Everything else is ignored.
* `timerFire`: the timeout callback of lines 212-222; the timer is consumed;
  when the handshake is not complete it unsubscribes, destroys the transport
  and rejects the connect promise with the timeout text. -/
def IframeConnection.hstep {V : Type} (targetOrigin : String) (nonce : String)
    (handshakeTimeout : Nat) (s : HandshakeState) (e : HEvent V) :
    HandshakeState × List ConnectOutcome :=
  match e with
  | .recv origin d =>
    if s.subscribed then
      match Transport.accepted targetOrigin origin d with
      | some (.handshakeResponse n, _) =>
        if n == nonce && !s.handshakeComplete then
          ({ handshakeComplete := true, subscribed := false,
             timerActive := false, adapterAlive := s.adapterAlive },
           [.resolvedConn])
        else (s, [])
      | _ => (s, [])
    else (s, [])
  | .timerFire =>
    if s.timerActive then
      if !s.handshakeComplete then
        ({ s with
             timerActive := false
             subscribed := false
             adapterAlive := false },
         [.rejectedConn (handshakeTimeoutText handshakeTimeout)])
      else ({ s with timerActive := false }, [])
    else (s, [])

/-- Run of a sequence of events through the handshake phase. -/
def IframeConnection.hrun {V : Type} (targetOrigin : String) (nonce : String)
    (handshakeTimeout : Nat) (s : HandshakeState) :
    List (HEvent V) → HandshakeState × List ConnectOutcome
  | [] => (s, [])
  | e :: tr =>
    let p := IframeConnection.hstep targetOrigin nonce handshakeTimeout s e
    let q := IframeConnection.hrun targetOrigin nonce handshakeTimeout p.1 tr
    (q.1, p.2 ++ q.2)

/-! ## Derived data used only to state claims -/

/-- Incoming reply for one call id: either a Response carrying a result or an
ErrorMessage carrying an error text. -/
def replyMessage {V : Type} (id : String) : Except String V → ProtocolMessage V
  | .ok v => .response id v
  | .error msg => .error id msg

/-- Platform message events delivering one reply per listed call, in list
order, all sent from the expected origin. -/
def replyEvents {V : Type} (targetOrigin : String)
    (rs : List (String × Except String V)) : List (CEvent V) :=
  rs.map (fun p => CEvent.recv targetOrigin (brandedDatum (replyMessage p.1 p.2)))

/-- The settlement a reply should produce for its own call. -/
def replyOutcome {V : Type} : Except String V → Settlement V
  | .ok v => .resolved v
  | .error msg => .rejected msg

/-- Control path taken by `dispatchRequest` for one request: the four
mutually exclusive outcomes of the dispatch algorithm.  Being computed by a
total function, exactly one path obtains per request. -/
inductive DispatchPath (V : Type) where
  | notExposed
  | notFunction
  | success (result : V)
  | opFailure (thrown : Thrown V)

/-- The classification itself, read off the same guards as the code. -/
def dispatchPath {V : Type} (api : ApiObject V) (method : String)
    (args : List V) : DispatchPath V :=
  if !(hasOwnProp api method) then .notExposed
  else
    match getProp api method with
    | some (.fn f) =>
      match f args with
      | .ok result => .success result
      | .error err => .opFailure err
    | _ => .notFunction

/-- The single outbound message each path produces. -/
def DispatchPath.message {V : Type} (id : String) (method : String) :
    DispatchPath V → ProtocolMessage V
  | .notExposed => .error id (notExposedText method)
  | .notFunction => .error id (notFnText method)
  | .success r => .response id r
  | .opFailure t => .error id t.toText

/-! ## Concrete instances used by the witness theorems -/

/-- Concrete api object over `V := Nat`: an `add` operation, a non-function
member, and an operation that always throws an `Error`. -/
def exampleApi : ApiObject Nat :=
  { own :=
      [("add", .fn (fun args =>
          match args with
          | [a, b] => Except.ok (a + b)
          | _ => Except.error (.nonErr "bad args"))),
       ("notAFn", .val 7),
       ("boom", .fn (fun _ => Except.error (.errObj "kaboom" "at dispatch (child.ts:125)")))] }

/-- Concrete established connection with two calls in flight. -/
def exampleState : CallerState Nat :=
  { pendingCalls := [("a", "greet"), ("b", "add")], subscribed := true,
    adapterAlive := true }

/-- Concrete established connection with three calls in flight. -/
def exampleState3 : CallerState Nat :=
  { pendingCalls := [("i1", "m1"), ("i2", "m2"), ("i3", "m3")],
    subscribed := true, adapterAlive := true }

/-- Concrete replies for the three calls of `exampleState3`, arriving in the
reverse of send order. -/
def exampleReplies : List (String × Except String Nat) :=
  [("i3", Except.ok 30), ("i2", Except.ok 20), ("i1", Except.ok 10)]

/-! ## Association-list lemmas -/

theorem findCall_dropCall_self {A : Type} (id : String) (m : List (String × A)) :
    findCall id (dropCall id m) = none := by
  induction m with
  | nil => rfl
  | cons p rest ih =>
    by_cases h : p.1 = id <;> simp [dropCall, findCall, h, ih]

theorem findCall_dropCall_ne {A : Type} {j id : String} (m : List (String × A))
    (h : j ≠ id) : findCall id (dropCall j m) = findCall id m := by
  induction m with
  | nil => rfl
  | cons p rest ih =>
    have hij : id ≠ j := Ne.symm h
    by_cases hp : p.1 = j
    · have hpid : p.1 ≠ id := by rw [hp]; exact h
      simp [dropCall, findCall, hp, hpid, ih, h, hij]
    · by_cases hq : p.1 = id <;> simp [dropCall, findCall, hp, hq, ih, h, hij]

theorem findCall_setCall_self {A : Type} (id : String) (v : A)
    (m : List (String × A)) : findCall id (setCall id v m) = some v := by
  simp [setCall, findCall]

theorem findCall_setCall_ne {A : Type} {j id : String} (v : A)
    (m : List (String × A)) (h : j ≠ id) :
    findCall id (setCall j v m) = findCall id m := by
  have hj : j ≠ id := h
  simp [setCall, findCall, hj, findCall_dropCall_ne m h]

theorem mem_keys_of_findCall {A : Type} {id : String} {m : List (String × A)}
    {v : A} (h : findCall id m = some v) : id ∈ m.map Prod.fst := by
  induction m with
  | nil => cases h
  | cons p rest ih =>
    by_cases hp : p.1 = id
    · simp [hp]
    · have := ih (by simpa [findCall, hp] using h)
      simp [this]

theorem findCall_none_of_not_mem {A : Type} {id : String}
    {m : List (String × A)} (h : id ∉ m.map Prod.fst) : findCall id m = none := by
  induction m with
  | nil => rfl
  | cons p rest ih =>
    have hp : p.1 ≠ id := by
      intro hc
      exact h (by simp [hc])
    have hrest : id ∉ rest.map Prod.fst := by
      intro hc
      exact h (by simp [hc])
    simp [findCall, hp, ih hrest]

theorem findCall_none_forall {A : Type} {id : String} {m : List (String × A)}
    (h : findCall id m = none) : ∀ p ∈ m, p.1 ≠ id := by
  induction m with
  | nil => intro p hp; cases hp
  | cons q rest ih =>
    intro p hp
    by_cases hq : q.1 = id
    · simp [findCall, hq] at h
    · rcases List.mem_cons.mp hp with hp | hp
      · rw [hp]; exact hq
      · exact ih (by simpa [findCall, hq] using h) p hp

/-! ## settlementsFor lemmas -/

theorem settlementsFor_append {V : Type} (id : String) (a b : List (Action V)) :
    settlementsFor id (a ++ b) = settlementsFor id a ++ settlementsFor id b := by
  simp [settlementsFor, List.filterMap_append]

theorem settlementsFor_destroy_none {V : Type} {id : String}
    {m : List (String × String)} (h : findCall id m = none) :
    settlementsFor id (m.flatMap
      (fun p => [Action.cancelTimer p.1,
                 Action.settle (V := V) p.1 (.rejected destroyedText)])) = [] := by
  induction m with
  | nil => rfl
  | cons q rest ih =>
    have hq : q.1 ≠ id := findCall_none_forall h q (by simp)
    have hrest : findCall id rest = none := by
      simpa [findCall, hq] using h
    simpa [settlementsFor, hq] using ih hrest

theorem settlementsFor_destroy_some {V : Type} {id : String} {v : String}
    {m : List (String × String)} (hn : (m.map Prod.fst).Nodup)
    (h : findCall id m = some v) :
    settlementsFor id (m.flatMap
      (fun p => [Action.cancelTimer p.1,
                 Action.settle (V := V) p.1 (.rejected destroyedText)])) =
      [Settlement.rejected destroyedText] := by
  induction m with
  | nil => cases h
  | cons q rest ih =>
    simp only [List.map_cons] at hn
    rcases List.nodup_cons.mp hn with ⟨hnotin, hn2⟩
    by_cases hq : q.1 = id
    · have hrest : findCall id rest = none :=
        findCall_none_of_not_mem (by rw [← hq]; exact hnotin)
      simp [settlementsFor, hq, List.flatMap_cons] at *
      simpa [settlementsFor] using settlementsFor_destroy_none (V := V) hrest
    · have hrest : findCall id rest = some v := by
        simpa [findCall, hq] using h
      simp only [List.flatMap_cons]
      rw [settlementsFor_append]
      have hhead : settlementsFor (V := V) id
          [Action.cancelTimer q.1, Action.settle q.1 (.rejected destroyedText)] = [] := by
        simp [settlementsFor, hq]
      rw [hhead, List.nil_append]
      exact ih hn2 hrest

theorem settlementsFor_pair {V : Type} (id j : String) (st : Settlement V) :
    settlementsFor id [Action.cancelTimer j, Action.settle j st] =
      if j = id then [st] else [] := by
  by_cases h : j = id <;> simp [settlementsFor, h]

theorem settlementsFor_single {V : Type} (id j : String) (st : Settlement V) :
    settlementsFor id [Action.settle j st] = if j = id then [st] else [] := by
  by_cases h : j = id <;> simp [settlementsFor, h]

/-! ## Single-step lemmas for the caller engine -/

theorem step_dead {V : Type} (ct : Nat) (tO : String) (s : CallerState V)
    (e : CEvent V) (id : String)
    (hnone : findCall id s.pendingCalls = none)
    (hcall : isCallFor id e = false) :
    settlementsFor id (IframeConnection.step ct tO s e).2 = [] ∧
      findCall id (IframeConnection.step ct tO s e).1.pendingCalls = none := by
  cases e with
  | recv origin d =>
    by_cases hs : s.subscribed
    · cases hacc : Transport.accepted tO origin d with
      | none => simp [IframeConnection.step, hs, hacc, settlementsFor, hnone]
      | some p =>
        obtain ⟨m, o⟩ := p
        cases m with
        | response j v =>
          cases hf : findCall j s.pendingCalls with
          | none =>
            simp [IframeConnection.step, hs, hacc, IframeConnection.handleMessage,
              IframeConnection.settlePendingCall, hf, settlementsFor, hnone]
          | some mth =>
            have hji : j ≠ id := by
              intro hji; rw [hji, hnone] at hf; cases hf
            simp [IframeConnection.step, hs, hacc, IframeConnection.handleMessage,
              IframeConnection.settlePendingCall, hf, settlementsFor_pair, hji,
              findCall_dropCall_ne _ hji, hnone]
        | error j t =>
          cases hf : findCall j s.pendingCalls with
          | none =>
            simp [IframeConnection.step, hs, hacc, IframeConnection.handleMessage,
              IframeConnection.settlePendingCall, hf, settlementsFor, hnone]
          | some mth =>
            have hji : j ≠ id := by
              intro hji; rw [hji, hnone] at hf; cases hf
            simp [IframeConnection.step, hs, hacc, IframeConnection.handleMessage,
              IframeConnection.settlePendingCall, hf, settlementsFor_pair, hji,
              findCall_dropCall_ne _ hji, hnone]
        | handshakeRequest n =>
          simp [IframeConnection.step, hs, hacc, IframeConnection.handleMessage,
            settlementsFor, hnone]
        | handshakeResponse n =>
          simp [IframeConnection.step, hs, hacc, IframeConnection.handleMessage,
            settlementsFor, hnone]
        | request i mm aa =>
          simp [IframeConnection.step, hs, hacc, IframeConnection.handleMessage,
            settlementsFor, hnone]
        | unknownType tag =>
          simp [IframeConnection.step, hs, hacc, IframeConnection.handleMessage,
            settlementsFor, hnone]
    · simp [IframeConnection.step, hs, settlementsFor, hnone]
  | call j mm aa =>
    have hji : j ≠ id := by simpa [isCallFor] using hcall
    simp [IframeConnection.step, settlementsFor, findCall_setCall_ne _ _ hji, hnone]
  | timerFire j =>
    cases hf : findCall j s.pendingCalls with
    | none => simp [IframeConnection.step, hf, settlementsFor, hnone]
    | some mth =>
      have hji : j ≠ id := by
        intro hji; rw [hji, hnone] at hf; cases hf
      simp [IframeConnection.step, hf, settlementsFor_single, hji,
        findCall_dropCall_ne _ hji, hnone]
  | destroy =>
    refine ⟨settlementsFor_destroy_none hnone, ?_⟩
    simp [IframeConnection.step, findCall]

theorem step_quiet {V : Type} (ct : Nat) (tO : String) (s : CallerState V)
    (e : CEvent V) (id method : String)
    (hsome : findCall id s.pendingCalls = some method)
    (hsub : s.subscribed = true)
    (hmo : matchOutcome ct tO method id e = none)
    (hcall : isCallFor id e = false)
    (hdes : isDestroyEvent e = false) :
    settlementsFor id (IframeConnection.step ct tO s e).2 = [] ∧
      findCall id (IframeConnection.step ct tO s e).1.pendingCalls = some method ∧
      (IframeConnection.step ct tO s e).1.subscribed = true := by
  cases e with
  | recv origin d =>
    cases hacc : Transport.accepted tO origin d with
    | none => simp [IframeConnection.step, hsub, hacc, settlementsFor, hsome]
    | some p =>
      obtain ⟨m, o⟩ := p
      cases m with
      | response j v =>
        have hji : j ≠ id := by simpa [matchOutcome, hacc] using hmo
        cases hf : findCall j s.pendingCalls with
        | none =>
          simp [IframeConnection.step, hsub, hacc, IframeConnection.handleMessage,
            IframeConnection.settlePendingCall, hf, settlementsFor, hsome]
        | some mth =>
          simp [IframeConnection.step, hsub, hacc, IframeConnection.handleMessage,
            IframeConnection.settlePendingCall, hf, settlementsFor_pair, hji,
            findCall_dropCall_ne _ hji, hsome]
      | error j t =>
        have hji : j ≠ id := by simpa [matchOutcome, hacc] using hmo
        cases hf : findCall j s.pendingCalls with
        | none =>
          simp [IframeConnection.step, hsub, hacc, IframeConnection.handleMessage,
            IframeConnection.settlePendingCall, hf, settlementsFor, hsome]
        | some mth =>
          simp [IframeConnection.step, hsub, hacc, IframeConnection.handleMessage,
            IframeConnection.settlePendingCall, hf, settlementsFor_pair, hji,
            findCall_dropCall_ne _ hji, hsome]
      | handshakeRequest n =>
        simp [IframeConnection.step, hsub, hacc, IframeConnection.handleMessage,
          settlementsFor, hsome]
      | handshakeResponse n =>
        simp [IframeConnection.step, hsub, hacc, IframeConnection.handleMessage,
          settlementsFor, hsome]
      | request i mm aa =>
        simp [IframeConnection.step, hsub, hacc, IframeConnection.handleMessage,
          settlementsFor, hsome]
      | unknownType tag =>
        simp [IframeConnection.step, hsub, hacc, IframeConnection.handleMessage,
          settlementsFor, hsome]
  | call j mm aa =>
    have hji : j ≠ id := by simpa [isCallFor] using hcall
    simp [IframeConnection.step, settlementsFor, findCall_setCall_ne _ _ hji,
      hsome, hsub]
  | timerFire j =>
    have hji : j ≠ id := by simpa [matchOutcome] using hmo
    cases hf : findCall j s.pendingCalls with
    | none => simp [IframeConnection.step, hf, settlementsFor, hsome, hsub]
    | some mth =>
      simp [IframeConnection.step, hf, settlementsFor_single, hji,
        findCall_dropCall_ne _ hji, hsome, hsub]
  | destroy => simp [isDestroyEvent] at hdes

theorem step_matched {V : Type} (ct : Nat) (tO : String) (s : CallerState V)
    (e : CEvent V) (id method : String) (out : Settlement V)
    (hsome : findCall id s.pendingCalls = some method)
    (hsub : s.subscribed = true)
    (hmo : matchOutcome ct tO method id e = some out) :
    settlementsFor id (IframeConnection.step ct tO s e).2 = [out] ∧
      findCall id (IframeConnection.step ct tO s e).1.pendingCalls = none := by
  cases e with
  | recv origin d =>
    cases hacc : Transport.accepted tO origin d with
    | none => simp [matchOutcome, hacc] at hmo
    | some p =>
      obtain ⟨m, o⟩ := p
      cases m with
      | response j v =>
        by_cases hji : j = id
        · subst hji
          have hout : Settlement.resolved v = out := by
            simpa [matchOutcome, hacc] using hmo
          simp [IframeConnection.step, hsub, hacc, IframeConnection.handleMessage,
            IframeConnection.settlePendingCall, hsome, settlementsFor_pair,
            findCall_dropCall_self, hout]
        · simp [matchOutcome, hacc, hji] at hmo
      | error j t =>
        by_cases hji : j = id
        · subst hji
          have hout : Settlement.rejected t = out := by
            simpa [matchOutcome, hacc] using hmo
          simp [IframeConnection.step, hsub, hacc, IframeConnection.handleMessage,
            IframeConnection.settlePendingCall, hsome, settlementsFor_pair,
            findCall_dropCall_self, hout]
        · simp [matchOutcome, hacc, hji] at hmo
      | handshakeRequest n => simp [matchOutcome, hacc] at hmo
      | handshakeResponse n => simp [matchOutcome, hacc] at hmo
      | request i mm aa => simp [matchOutcome, hacc] at hmo
      | unknownType tag => simp [matchOutcome, hacc] at hmo
  | call j mm aa => simp [matchOutcome] at hmo
  | timerFire j =>
    by_cases hji : j = id
    · subst hji
      have hout : Settlement.rejected (timeoutText method ct) = out := by
        simpa [matchOutcome] using hmo
      simp [IframeConnection.step, hsome, settlementsFor_single,
        findCall_dropCall_self, hout]
    · simp [matchOutcome, hji] at hmo
  | destroy => simp [matchOutcome] at hmo

/-! ## Trace lemmas for the caller engine -/

theorem run_dead {V : Type} (ct : Nat) (tO : String) (tr : List (CEvent V))
    (s : CallerState V) (id : String)
    (hnone : findCall id s.pendingCalls = none)
    (hcall : ∀ e ∈ tr, isCallFor id e = false) :
    settlementsFor id (IframeConnection.run ct tO s tr).2 = [] ∧
      findCall id (IframeConnection.run ct tO s tr).1.pendingCalls = none := by
  induction tr generalizing s with
  | nil => exact ⟨rfl, hnone⟩
  | cons e tr ih =>
    obtain ⟨h1, h2⟩ := step_dead ct tO s e id hnone (hcall e (by simp))
    obtain ⟨h3, h4⟩ :=
      ih (IframeConnection.step ct tO s e).1 h2 (fun x hx => hcall x (by simp [hx]))
    refine ⟨?_, h4⟩
    simp [IframeConnection.run, settlementsFor_append, h1, h3]

theorem run_quiet {V : Type} (ct : Nat) (tO : String) (tr : List (CEvent V))
    (s : CallerState V) (id method : String)
    (hsome : findCall id s.pendingCalls = some method)
    (hsub : s.subscribed = true)
    (hq : ∀ e ∈ tr, matchOutcome ct tO method id e = none ∧
      isCallFor id e = false ∧ isDestroyEvent e = false) :
    settlementsFor id (IframeConnection.run ct tO s tr).2 = [] ∧
      findCall id (IframeConnection.run ct tO s tr).1.pendingCalls = some method ∧
      (IframeConnection.run ct tO s tr).1.subscribed = true := by
  induction tr generalizing s with
  | nil => exact ⟨rfl, hsome, hsub⟩
  | cons e tr ih =>
    obtain ⟨hm, hc, hd⟩ := hq e (by simp)
    obtain ⟨h1, h2, h3⟩ := step_quiet ct tO s e id method hsome hsub hm hc hd
    obtain ⟨h4, h5, h6⟩ :=
      ih (IframeConnection.step ct tO s e).1 h2 h3 (fun x hx => hq x (by simp [hx]))
    refine ⟨?_, h5, h6⟩
    simp [IframeConnection.run, settlementsFor_append, h1, h4]

/-! ## Run decomposition -/

theorem run_append {V : Type} (ct : Nat) (tO : String) (s : CallerState V)
    (t1 t2 : List (CEvent V)) :
    IframeConnection.run ct tO s (t1 ++ t2) =
      ((IframeConnection.run ct tO (IframeConnection.run ct tO s t1).1 t2).1,
       (IframeConnection.run ct tO s t1).2 ++
         (IframeConnection.run ct tO (IframeConnection.run ct tO s t1).1 t2).2) := by
  induction t1 generalizing s with
  | nil => simp [IframeConnection.run]
  | cons e tr ih =>
    simp [IframeConnection.run, ih]

/-! ## Further shared lemmas -/

theorem accepted_eq {V : Type} (tO origin : String) (d : RawDatum V) :
    Transport.accepted tO origin d =
      if (tO = "*" ∨ origin = tO) ∧ isProtocolMessage d = true
      then some (d.msg, origin) else none := by
  unfold Transport.accepted
  by_cases h1 : tO = "*" <;> by_cases h2 : origin = tO <;>
    by_cases h3 : isProtocolMessage d <;> simp [h1, h2, h3]

theorem findCall_mem {A : Type} {id : String} {m : List (String × A)} {v : A}
    (h : findCall id m = some v) : (id, v) ∈ m := by
  induction m with
  | nil => cases h
  | cons p rest ih =>
    by_cases hp : p.1 = id
    · have hv : p.2 = v := by simpa [findCall, hp] using h
      have : p = (id, v) := Prod.ext hp hv
      rw [← this]
      exact List.mem_cons_self p rest
    · exact List.mem_cons_of_mem p (ih (by simpa [findCall, hp] using h))

theorem destroyedText_ne_timeoutText (method : String) (ct : Nat) :
    destroyedText ≠ timeoutText method ct := by
  intro h
  have hl := congrArg String.length h
  rw [destroyedText, timeoutText, String.length_append, String.length_append,
    String.length_append, String.length_append] at hl
  have e1 : ("Connection destroyed." : String).length = 21 := rfl
  have e2 : ("Call to \"" : String).length = 9 := rfl
  have e3 : ("\" timed out after " : String).length = 18 := rfl
  have e4 : ("ms." : String).length = 3 := rfl
  rw [e1, e2, e3, e4] at hl
  omega

theorem step_reply {V : Type} (ct : Nat) (tO : String) (s : CallerState V)
    (i : String) (x : Except String V) (m : String)
    (hf : findCall i s.pendingCalls = some m) (hsub : s.subscribed = true) :
    IframeConnection.step ct tO s (.recv tO (brandedDatum (replyMessage i x))) =
      ({ s with pendingCalls := dropCall i s.pendingCalls },
       [Action.cancelTimer i, Action.settle i (replyOutcome x)]) := by
  cases x <;>
    simp [IframeConnection.step, hsub, accepted_eq, isProtocolMessage, brandedDatum,
      replyMessage, replyOutcome, IframeConnection.handleMessage,
      IframeConnection.settlePendingCall, hf]

theorem replyEvents_no_call {V : Type} (tO : String) (id : String)
    (rs : List (String × Except String V)) :
    ∀ e ∈ replyEvents tO rs, isCallFor id e = false := by
  intro e he
  simp only [replyEvents, List.mem_map] at he
  obtain ⟨p, _, hpe⟩ := he
  rw [← hpe]
  rfl

/-! ## Handshake lemmas -/

theorem hstep_stuck {V : Type} (tO nonce : String) (hto : Nat)
    (s : HandshakeState) (e : HEvent V)
    (h1 : s.subscribed = false) (h2 : s.timerActive = false) :
    IframeConnection.hstep tO nonce hto s e = (s, []) := by
  cases e with
  | recv origin d => simp [IframeConnection.hstep, h1]
  | timerFire => simp [IframeConnection.hstep, h2]

theorem hstep_out_len {V : Type} (tO nonce : String) (hto : Nat)
    (s : HandshakeState) (e : HEvent V) :
    ((IframeConnection.hstep tO nonce hto s e).2).length ≤ 1 := by
  cases e with
  | recv origin d =>
    by_cases hs : s.subscribed
    · cases hacc : Transport.accepted tO origin d with
      | none => simp [IframeConnection.hstep, hs, hacc]
      | some p =>
        obtain ⟨m, o⟩ := p
        cases m <;> simp [IframeConnection.hstep, hs, hacc] <;> split <;> simp
    · simp [IframeConnection.hstep, hs]
  | timerFire =>
    by_cases ht : s.timerActive
    · by_cases hc : s.handshakeComplete <;> simp [IframeConnection.hstep, ht, hc]
    · simp [IframeConnection.hstep, ht]

theorem hstep_out_stuck {V : Type} (tO nonce : String) (hto : Nat)
    (s : HandshakeState) (e : HEvent V)
    (h : (IframeConnection.hstep tO nonce hto s e).2 ≠ []) :
    (IframeConnection.hstep tO nonce hto s e).1.subscribed = false ∧
      (IframeConnection.hstep tO nonce hto s e).1.timerActive = false := by
  cases e with
  | recv origin d =>
    by_cases hs : s.subscribed
    · cases hacc : Transport.accepted tO origin d with
      | none => simp [IframeConnection.hstep, hs, hacc] at h
      | some p =>
        obtain ⟨m, o⟩ := p
        cases m with
        | handshakeResponse n =>
          by_cases hb : (n == nonce && !s.handshakeComplete) = true
          · simp [IframeConnection.hstep, hs, hacc, hb]
          · simp [IframeConnection.hstep, hs, hacc, hb] at h
        | handshakeRequest n => simp [IframeConnection.hstep, hs, hacc] at h
        | request i mm aa => simp [IframeConnection.hstep, hs, hacc] at h
        | response i r => simp [IframeConnection.hstep, hs, hacc] at h
        | error i t => simp [IframeConnection.hstep, hs, hacc] at h
        | unknownType tag => simp [IframeConnection.hstep, hs, hacc] at h
    · simp [IframeConnection.hstep, hs] at h
  | timerFire =>
    by_cases ht : s.timerActive
    · by_cases hc : s.handshakeComplete
      · simp [IframeConnection.hstep, ht, hc] at h
      · simp [IframeConnection.hstep, ht, hc]
    · simp [IframeConnection.hstep, ht] at h

theorem hrun_stuck {V : Type} (tO nonce : String) (hto : Nat)
    (tr : List (HEvent V)) (s : HandshakeState)
    (h1 : s.subscribed = false) (h2 : s.timerActive = false) :
    IframeConnection.hrun tO nonce hto s tr = (s, []) := by
  induction tr with
  | nil => rfl
  | cons e tr ih =>
    simp [IframeConnection.hrun, hstep_stuck tO nonce hto s e h1 h2, ih]

theorem hrun_out_len {V : Type} (tO nonce : String) (hto : Nat)
    (tr : List (HEvent V)) (s : HandshakeState) :
    ((IframeConnection.hrun tO nonce hto s tr).2).length ≤ 1 := by
  induction tr generalizing s with
  | nil => simp [IframeConnection.hrun]
  | cons e tr ih =>
    cases hout : (IframeConnection.hstep tO nonce hto s e).2 with
    | nil =>
      have := ih (IframeConnection.hstep tO nonce hto s e).1
      simpa [IframeConnection.hrun, hout] using this
    | cons o os =>
      obtain ⟨hsub, ht⟩ := hstep_out_stuck tO nonce hto s e (by simp [hout])
      have hstuckrun := hrun_stuck tO nonce hto tr
        (IframeConnection.hstep tO nonce hto s e).1 hsub ht
      have hlen := hstep_out_len tO nonce hto s e
      rw [hout] at hlen
      simp only [IframeConnection.hrun, hout, hstuckrun]
      simpa using hlen

/-! ## Claim theorems -/

theorem step_recv_non_settling {V : Type} (ct : Nat) (tO : String)
    (s : CallerState V) (origin : String) (d : RawDatum V)
    (h : IframeConnection.handleMessage s d.msg = (s, [])) :
    IframeConnection.step ct tO s (.recv origin d) = (s, []) := by
  by_cases hs : s.subscribed
  · simp only [IframeConnection.step, hs, if_true, accepted_eq]
    by_cases hok : (tO = "*" ∨ origin = tO) ∧ isProtocolMessage d = true
    · rw [if_pos hok]; exact h
    · rw [if_neg hok]
  · simp [IframeConnection.step, hs]

/-- C2: every inbound Request processed by an active callee dispatcher
produces exactly one outbound message; the outcome is the value of the total
classification function `dispatchPath`, so the four outcomes (method not
exposed, not a function, success, operation failure) are mutually exclusive
and exhaustive; and the outbound message is a success Response carrying the
same id and the awaited return value exactly when the method names an own
function entry whose run on `args` returns that value. -/
theorem dispatch_exactly_one_outbound {V : Type} (api : ApiObject V)
    (id method : String) (args : List V) :
    ((IframeExposed.dispatchRequest api id method args).1).length = 1 ∧
    (IframeExposed.dispatchRequest api id method args).1 =
      [(dispatchPath api method args).message id method] ∧
    (∀ r : V,
      (IframeExposed.dispatchRequest api id method args).1 =
          [ProtocolMessage.response id r] ↔
        ∃ f, findCall method api.own = some (ApiEntry.fn f) ∧
          f args = Except.ok r) := by
  have hmsg : (IframeExposed.dispatchRequest api id method args).1 =
      [(dispatchPath api method args).message id method] := by
    cases hf : findCall method api.own with
    | none =>
      have hown : hasOwnProp api method = false := by simp [hasOwnProp, hf]
      simp [IframeExposed.dispatchRequest, dispatchPath, hown,
        DispatchPath.message]
    | some entry =>
      have hown : hasOwnProp api method = true := by simp [hasOwnProp, hf]
      have hg : getProp api method = some entry := by simp [getProp, hf]
      cases entry with
      | fn f =>
        cases hr : f args <;>
          simp [IframeExposed.dispatchRequest, dispatchPath, hown, hg, hr,
            DispatchPath.message]
      | val v =>
        simp [IframeExposed.dispatchRequest, dispatchPath, hown, hg,
          DispatchPath.message]
  refine ⟨by rw [hmsg]; rfl, hmsg, ?_⟩
  intro r
  constructor
  · intro hres
    cases hf : findCall method api.own with
    | none =>
      have hown : hasOwnProp api method = false := by simp [hasOwnProp, hf]
      simp [IframeExposed.dispatchRequest, hown] at hres
    | some entry =>
      have hown : hasOwnProp api method = true := by simp [hasOwnProp, hf]
      have hg : getProp api method = some entry := by simp [getProp, hf]
      cases entry with
      | fn f =>
        cases hr : f args with
        | ok rv =>
          have hrv : rv = r := by
            simpa [IframeExposed.dispatchRequest, hown, hg, hr] using hres
          refine ⟨f, rfl, ?_⟩
          rw [hr, hrv]
        | error t =>
          simp [IframeExposed.dispatchRequest, hown, hg, hr] at hres
      | val v =>
        simp [IframeExposed.dispatchRequest, hown, hg] at hres
  · rintro ⟨f, hf, hok⟩
    have hown : hasOwnProp api method = true := by simp [hasOwnProp, hf]
    have hg : getProp api method = some (.fn f) := by simp [getProp, hf]
    simp [IframeExposed.dispatchRequest, hown, hg, hok]

/-- Witness for C2: the exposed `add` operation applied to `[2, 3]` yields
exactly the Response with the same id and result `5`. -/
theorem dispatch_exactly_one_outbound_witness :
    (IframeExposed.dispatchRequest exampleApi "c1" "add" [2, 3]).1 =
      [ProtocolMessage.response "c1" 5] :=
  ((dispatch_exactly_one_outbound exampleApi "c1" "add" [2, 3]).2.2 5).mpr
    ⟨_, rfl, rfl⟩

/-- C3: a Channel Adapter subscriber callback is invoked exactly for inbound
events whose sender origin matches the configured origin (or the configured
origin is the wildcard) and whose payload satisfies `isProtocolMessage`; the
origin check runs first, so a wrong-origin event is dropped identically for
every payload; and an event failing either check produces no callback
invocation at all. -/
theorem transport_origin_then_shape {V C : Type} (targetOrigin origin : String)
    (d : RawDatum V) (callbacks : List C) (cb : C) (m : ProtocolMessage V)
    (o : String) :
    ((cb, m, o) ∈ Transport.deliver targetOrigin callbacks origin d ↔
      cb ∈ callbacks ∧ (targetOrigin = "*" ∨ origin = targetOrigin) ∧
        isProtocolMessage d = true ∧ m = d.msg ∧ o = origin) ∧
    (targetOrigin ≠ "*" → origin ≠ targetOrigin →
      ∀ d2 : RawDatum V, Transport.accepted targetOrigin origin d2 = none) ∧
    (¬ ((targetOrigin = "*" ∨ origin = targetOrigin) ∧
        isProtocolMessage d = true) →
      Transport.deliver targetOrigin callbacks origin d = []) := by
  refine ⟨?_, ?_, ?_⟩
  · rw [Transport.deliver, accepted_eq]
    by_cases hok : (targetOrigin = "*" ∨ origin = targetOrigin) ∧
        isProtocolMessage d = true
    · rw [if_pos hok]
      simp only [List.mem_map, Prod.mk.injEq]
      constructor
      · rintro ⟨a, ha, h1, h2, h3⟩
        exact ⟨h1 ▸ ha, hok.1, hok.2, h2.symm, h3.symm⟩
      · rintro ⟨hcb, _, _, hm, ho⟩
        exact ⟨cb, hcb, rfl, hm.symm, ho.symm⟩
    · rw [if_neg hok]
      simp only [List.not_mem_nil, false_iff]
      intro hc
      exact hok ⟨hc.2.1, hc.2.2.1⟩
  · intro h1 h2 d2
    rw [accepted_eq, if_neg]
    intro hc
    rcases hc.1 with hc1 | hc1
    · exact h1 hc1
    · exact h2 hc1
  · intro hnot
    rw [Transport.deliver, accepted_eq, if_neg hnot]

/-- Witness for C3: with a pinned origin, a well-formed protocol message from
a different origin is dropped by the adapter. -/
theorem transport_origin_then_shape_witness :
    Transport.accepted "https://parent.example.com" "https://evil.example.com"
      (brandedDatum (ProtocolMessage.response (V := Nat) "1" 5)) = none :=
  (transport_origin_then_shape (C := Unit) "https://parent.example.com"
      "https://evil.example.com"
      (brandedDatum (ProtocolMessage.response (V := Nat) "1" 5)) [] ()
      (.response "1" 5) "x").2.1
    (by decide) (by decide) _

/-- C5: a Request whose method is not a directly declared own property of the
operation table — even when the name would resolve through the prototype
chain, as `getProp` would for the inherited members — is answered with
exactly the not-exposed ErrorMessage and invokes nothing; a Request naming an
own non-function entry is answered with exactly the not-a-function
ErrorMessage and invokes nothing. -/
theorem dispatch_rejects_non_own_and_non_function {V : Type}
    (api : ApiObject V) (id : String) (args : List V) :
    (∀ method, hasOwnProp api method = false →
      IframeExposed.dispatchRequest api id method args =
        ([.error id (notExposedText method)], [])) ∧
    (∀ method v, findCall method api.own = some (ApiEntry.val v) →
      IframeExposed.dispatchRequest api id method args =
        ([.error id (notFnText method)], [])) ∧
    (∀ method, hasOwnProp api method = false →
      getProp api method = findCall method (protoProps V)) := by
  refine ⟨?_, ?_, ?_⟩
  · intro method h
    simp [IframeExposed.dispatchRequest, h]
  · intro method v hv
    have hown : hasOwnProp api method = true := by simp [hasOwnProp, hv]
    have hg : getProp api method = some (.val v) := by simp [getProp, hv]
    simp [IframeExposed.dispatchRequest, hown, hg]
  · intro method h
    have hnone : findCall method api.own = none := by
      cases hc : findCall method api.own with
      | none => rfl
      | some e => simp [hasOwnProp, hc] at h
    simp [getProp, hnone]

/-- Witness for C5: `"constructor"` — resolvable through the prototype chain
but not an own property — is rejected as not exposed, with nothing invoked;
the own non-function member is rejected as not a function. -/
theorem dispatch_rejects_non_own_witness :
    IframeExposed.dispatchRequest exampleApi "7" "constructor" [] =
      ([.error "7" "Method \"constructor\" is not exposed."], []) ∧
    IframeExposed.dispatchRequest exampleApi "8" "notAFn" [] =
      ([.error "8" "\"notAFn\" is not a function."], []) :=
  ⟨(dispatch_rejects_non_own_and_non_function exampleApi "7" []).1
      "constructor" (by decide),
   (dispatch_rejects_non_own_and_non_function exampleApi "8" []).2.1
      "notAFn" 7 rfl⟩

/-- C6: an exposed operation that throws or rejects yields exactly one
ErrorMessage carrying the same id whose error field is the thrown message
text alone — the `message` of an `Error` instance (its `stack` never read) or
the `String(err)` rendering of any other thrown value — and the dispatcher
returns normally. -/
theorem operation_failure_message_text_only {V : Type} (api : ApiObject V)
    (id method : String) (args : List V) (f : List V → Except (Thrown V) V)
    (t : Thrown V)
    (hf : findCall method api.own = some (ApiEntry.fn f))
    (ht : f args = Except.error t) :
    IframeExposed.dispatchRequest api id method args =
      ([ProtocolMessage.error id t.toText], [(method, args)]) ∧
    (∀ message stack, Thrown.toText (V := V) (.errObj message stack) = message) ∧
    (∀ text, Thrown.toText (V := V) (.nonErr text) = text) := by
  have hown : hasOwnProp api method = true := by simp [hasOwnProp, hf]
  have hg : getProp api method = some (.fn f) := by simp [getProp, hf]
  exact ⟨by simp [IframeExposed.dispatchRequest, hown, hg, ht],
    fun _ _ => rfl, fun _ => rfl⟩

/-- Witness for C6: the throwing `boom` operation produces exactly one
ErrorMessage with the `message` text and no stack content. -/
theorem operation_failure_witness :
    IframeExposed.dispatchRequest exampleApi "9" "boom" [] =
      ([ProtocolMessage.error "9" "kaboom"], [("boom", [])]) :=
  (operation_failure_message_text_only exampleApi "9" "boom" [] _ _ rfl rfl).1

/-- C9: on the remote proxy, a symbol key yields `undefined`; every string
key — with no caller-side filtering of names — yields a function that, when
invoked, performs the call step: it records a PendingCall (with its timer)
under the fresh id and sends a Request naming that property. -/
theorem proxy_string_keys_unfiltered (V : Type) (ct : Nat) (tO : String) :
    (∀ n, IframeConnection.createProxyGet V (.sym n) = none) ∧
    (∀ name, IframeConnection.createProxyGet V (.str name) =
      some (fun args => { method := name, args := args })) ∧
    (∀ (s : CallerState V) (id name : String) (args : List V),
      IframeConnection.step ct tO s (.call id name args) =
        ({ s with pendingCalls := setCall id name s.pendingCalls },
         [Action.send (.request id name args)]) ∧
      findCall id (setCall id name s.pendingCalls) = some name) :=
  ⟨fun _ => rfl, fun _ => rfl,
   fun s id name args => ⟨rfl, findCall_setCall_self id name s.pendingCalls⟩⟩

/-- Witness for C9: `"then"` — a name outside any declared interface — still
yields the calling closure, while a symbol key yields `undefined`. -/
theorem proxy_string_keys_unfiltered_witness :
    IframeConnection.createProxyGet Nat (.sym 0) = none ∧
    IframeConnection.createProxyGet Nat (.str "then") =
      some (fun args => { method := "then", args := args }) :=
  ⟨(proxy_string_keys_unfiltered Nat 10000 "*").1 0,
   (proxy_string_keys_unfiltered Nat 10000 "*").2.1 "then"⟩

/-- C10: a branded message of unknown type passes `isProtocolMessage` and is
delivered, yet the callee dispatcher sends nothing for it and the caller
engine leaves state unchanged with no action; likewise the caller engine
ignores inbound request and handshake-request messages, and the callee
dispatcher ignores inbound response, error and handshake-response
messages. -/
theorem unknown_type_messages_ignored {V : Type} (api : ApiObject V) (ct : Nat)
    (tO tag : String) (s : CallerState V) :
    isProtocolMessage (brandedDatum (ProtocolMessage.unknownType (V := V) tag)) =
      true ∧
    Transport.accepted tO tO
        (brandedDatum (ProtocolMessage.unknownType (V := V) tag)) =
      some (.unknownType tag, tO) ∧
    IframeExposed.handleMessage api (.unknownType tag) = ([], []) ∧
    (∀ origin (d : RawDatum V), d.msg = .unknownType tag →
      IframeConnection.step ct tO s (.recv origin d) = (s, [])) ∧
    (∀ origin i mm (aa : List V),
      IframeConnection.step ct tO s
        (.recv origin (brandedDatum (.request i mm aa))) = (s, [])) ∧
    (∀ origin n,
      IframeConnection.step ct tO s
        (.recv origin (brandedDatum (ProtocolMessage.handshakeRequest (V := V) n))) =
      (s, [])) ∧
    (∀ i (r : V), IframeExposed.handleMessage api (.response i r) = ([], [])) ∧
    (∀ i t, IframeExposed.handleMessage api (ProtocolMessage.error (V := V) i t) =
      ([], [])) ∧
    (∀ n, IframeExposed.handleMessage api
      (ProtocolMessage.handshakeResponse (V := V) n) = ([], [])) := by
  refine ⟨rfl, ?_, rfl, ?_, ?_, ?_, fun _ _ => rfl, fun _ _ => rfl, fun _ => rfl⟩
  · simp [Transport.accepted, isProtocolMessage, brandedDatum]
  · intro origin d hd
    refine step_recv_non_settling ct tO s origin d ?_
    rw [hd]
    rfl
  · intro origin i mm aa
    exact step_recv_non_settling ct tO s origin _ rfl
  · intro origin n
    exact step_recv_non_settling ct tO s origin _ rfl

/-- Witness for C10: a branded message with the future type tag leaves a
concrete connection untouched with no outbound action. -/
theorem unknown_type_messages_ignored_witness :
    IframeConnection.step 10000 "*" exampleState
      (.recv "*" (brandedDatum (ProtocolMessage.unknownType (V := Nat) "v2-type"))) =
      (exampleState, []) :=
  (unknown_type_messages_ignored exampleApi 10000 "*" "v2-type"
    exampleState).2.2.2.1 "*" _ rfl

theorem run_cons {V : Type} (ct : Nat) (tO : String) (s : CallerState V)
    (e : CEvent V) (tr : List (CEvent V)) :
    IframeConnection.run ct tO s (e :: tr) =
      ((IframeConnection.run ct tO (IframeConnection.step ct tO s e).1 tr).1,
       (IframeConnection.step ct tO s e).2 ++
         (IframeConnection.run ct tO (IframeConnection.step ct tO s e).1 tr).2) :=
  rfl

/-- C1: a call issued on an established, not-yet-destroyed connection is
settled exactly once, by the first of the three matching events — an accepted
Response with its id (resolve with the result), an accepted ErrorMessage with
its id (reject with the error text), or its timer firing (reject with the
timeout text naming the method and the configured duration).  Before that
event the PendingCall is in the mapping; the event removes it; afterwards the
entry stays absent and no later matching message settles anything — the whole
run performs the single settlement `out`.  The default `callTimeout` is
10000 ms. -/
theorem call_settled_once_by_first_matching_event {V : Type} (ct : Nat)
    (tO : String) (s : CallerState V) (id method : String) (args : List V)
    (q r : List (CEvent V)) (e : CEvent V) (out : Settlement V)
    (hsub : s.subscribed = true)
    (hq : ∀ x ∈ q, matchOutcome ct tO method id x = none ∧
      isCallFor id x = false ∧ isDestroyEvent x = false)
    (he : matchOutcome ct tO method id e = some out)
    (hr : ∀ x ∈ r, isCallFor id x = false) :
    settlementsFor id
      (IframeConnection.run ct tO
        (IframeConnection.step ct tO s (.call id method args)).1
        (q ++ e :: r)).2 = [out] ∧
    findCall id
      (IframeConnection.run ct tO
        (IframeConnection.step ct tO s (.call id method args)).1 q).1.pendingCalls =
      some method ∧
    findCall id
      (IframeConnection.run ct tO
        (IframeConnection.step ct tO s (.call id method args)).1
        (q ++ e :: r)).1.pendingCalls = none ∧
    defaultCallTimeout = 10000 := by
  have h1 : findCall id
      (IframeConnection.step ct tO s (.call id method args)).1.pendingCalls =
      some method := findCall_setCall_self id method s.pendingCalls
  have h2 : (IframeConnection.step ct tO s (.call id method args)).1.subscribed =
      true := hsub
  obtain ⟨hqa, hqb, hqc⟩ := run_quiet ct tO q _ id method h1 h2 hq
  obtain ⟨hea, heb⟩ := step_matched ct tO _ e id method out hqb hqc he
  obtain ⟨hra, hrb⟩ := run_dead ct tO r _ id heb hr
  refine ⟨?_, hqb, ?_, rfl⟩
  · rw [run_append, settlementsFor_append, hqa, List.nil_append, run_cons]
    show (settlementsFor id ((IframeConnection.step ct tO _ e).2 ++ _)) = [out]
    rw [settlementsFor_append, hea, hra, List.append_nil]
  · rw [run_append, run_cons]
    exact hrb

/-- Witness for C1: a call with fresh id `"c"`; an unrelated response arrives
first, then the matching response with result 42, then a late duplicate
response for the same id; the call settles exactly once, with 42. -/
theorem call_settled_once_witness :
    settlementsFor "c"
      (IframeConnection.run 10000 "*"
        (IframeConnection.step 10000 "*" exampleState (.call "c" "greet" [])).1
        ([CEvent.recv "*" (brandedDatum (.response "zz" 1))] ++
          CEvent.recv "*" (brandedDatum (.response "c" 42)) ::
          [CEvent.recv "*" (brandedDatum (.response "c" 99))])).2 =
      [Settlement.resolved 42] :=
  (call_settled_once_by_first_matching_event 10000 "*" exampleState "c" "greet"
    [] [CEvent.recv "*" (brandedDatum (.response "zz" 1))]
    [CEvent.recv "*" (brandedDatum (.response "c" 99))]
    (CEvent.recv "*" (brandedDatum (.response "c" 42)))
    (Settlement.resolved 42) rfl (by decide) (by decide) (by decide)).1

/-- C4: the connect promise settles at most once over any event sequence; a
handshake response with a mismatched nonce never changes state or settles
anything; a response with the matching nonce while the handshake is pending
cancels the handshake timer, unsubscribes the handshake listener and resolves
the connect promise; if the timer fires first, connect rejects with the
timeout text, the adapter is torn down, and from the resulting state every
further event — including a late matching response — is ignored with no
outcome.  The default `handshakeTimeout` is 5000 ms. -/
theorem connect_nonce_and_timeout_discipline {V : Type} (tO nonce : String)
    (hto : Nat) :
    (∀ tr : List (HEvent V),
      ((IframeConnection.hrun tO nonce hto handshakeStart tr).2).length ≤ 1) ∧
    (∀ (s : HandshakeState) (origin n : String), n ≠ nonce →
      IframeConnection.hstep tO nonce hto s
        (.recv origin (brandedDatum (ProtocolMessage.handshakeResponse (V := V) n))) =
      (s, [])) ∧
    (∀ a : Bool,
      IframeConnection.hstep (V := V) tO nonce hto
        { handshakeComplete := false, subscribed := true, timerActive := true,
          adapterAlive := a }
        (.recv tO (brandedDatum (.handshakeResponse nonce))) =
      ({ handshakeComplete := true, subscribed := false, timerActive := false,
         adapterAlive := a }, [.resolvedConn])) ∧
    (IframeConnection.hstep (V := V) tO nonce hto handshakeStart .timerFire =
      ({ handshakeComplete := false, subscribed := false, timerActive := false,
         adapterAlive := false }, [.rejectedConn (handshakeTimeoutText hto)])) ∧
    (∀ e : HEvent V,
      IframeConnection.hstep tO nonce hto
        { handshakeComplete := false, subscribed := false, timerActive := false,
          adapterAlive := false } e =
      ({ handshakeComplete := false, subscribed := false, timerActive := false,
         adapterAlive := false }, [])) ∧
    defaultHandshakeTimeout = 5000 := by
  refine ⟨fun tr => hrun_out_len tO nonce hto tr handshakeStart, ?_, ?_, ?_,
    fun e => hstep_stuck tO nonce hto _ e rfl rfl, rfl⟩
  · intro s origin n hn
    by_cases hs : s.subscribed
    · simp only [IframeConnection.hstep, hs, if_true, accepted_eq]
      by_cases hok : (tO = "*" ∨ origin = tO) ∧ isProtocolMessage
          (brandedDatum (ProtocolMessage.handshakeResponse (V := V) n)) = true
      · rw [if_pos hok]
        simp [brandedDatum, hn]
      · rw [if_neg hok]
    · simp [IframeConnection.hstep, hs]
  · intro a
    simp [IframeConnection.hstep, accepted_eq, isProtocolMessage, brandedDatum]
  · simp [IframeConnection.hstep, handshakeStart]

/-- Witness for C4: a mismatched nonce leaves the pending handshake untouched
with no settlement, while the matching nonce resolves it and disarms the
timer. -/
theorem connect_nonce_and_timeout_witness :
    IframeConnection.hstep (V := Nat) "https://child.example.com" "nonce-1" 5000
      handshakeStart
      (.recv "https://child.example.com" (brandedDatum (.handshakeResponse "nonce-2"))) =
      (handshakeStart, []) ∧
    IframeConnection.hstep (V := Nat) "https://child.example.com" "nonce-1" 5000
      handshakeStart
      (.recv "https://child.example.com" (brandedDatum (.handshakeResponse "nonce-1"))) =
      ({ handshakeComplete := true, subscribed := false, timerActive := false,
         adapterAlive := true }, [.resolvedConn]) :=
  ⟨(connect_nonce_and_timeout_discipline (V := Nat) "https://child.example.com"
      "nonce-1" 5000).2.1 handshakeStart "https://child.example.com" "nonce-2"
      (by decide),
   (connect_nonce_and_timeout_discipline (V := Nat) "https://child.example.com"
      "nonce-1" 5000).2.2.1 true⟩

/-- C7: destroy synchronously cancels the timer of every still-pending call
and rejects it with the connection-destroyed text — a settlement distinct
from every timeout rejection — then clears the pending-calls mapping,
unsubscribes from the channel and destroys the adapter; afterwards no inbound
message changes the connection or produces any action. -/
theorem destroy_rejects_all_pending_and_seals {V : Type} (ct : Nat)
    (tO : String) (s : CallerState V)
    (hn : (s.pendingCalls.map Prod.fst).Nodup) :
    (∀ id method, findCall id s.pendingCalls = some method →
      Action.cancelTimer (V := V) id ∈
        (IframeConnection.step ct tO s CEvent.destroy).2 ∧
      settlementsFor id (IframeConnection.step ct tO s CEvent.destroy).2 =
        [Settlement.rejected destroyedText] ∧
      Settlement.rejected (V := V) destroyedText ≠
        Settlement.rejected (timeoutText method ct)) ∧
    (IframeConnection.step ct tO s CEvent.destroy).1 =
      { pendingCalls := [], subscribed := false, adapterAlive := false } ∧
    (∀ origin (d : RawDatum V),
      IframeConnection.step ct tO
          (IframeConnection.step ct tO s CEvent.destroy).1 (.recv origin d) =
        ((IframeConnection.step ct tO s CEvent.destroy).1, [])) := by
  refine ⟨?_, rfl, ?_⟩
  · intro id method hf
    refine ⟨?_, ?_, ?_⟩
    · exact List.mem_flatMap.mpr ⟨(id, method), findCall_mem hf, by simp⟩
    · exact settlementsFor_destroy_some (V := V) hn hf
    · intro hc
      exact destroyedText_ne_timeoutText method ct (Settlement.rejected.inj hc)
  · intro origin d
    simp [IframeConnection.step]

/-- Witness for C7: destroying the example connection rejects the pending
call `"a"` with exactly the connection-destroyed settlement. -/
theorem destroy_rejects_all_pending_witness :
    settlementsFor "a" (IframeConnection.step 10000 "*" exampleState
      CEvent.destroy).2 = [Settlement.rejected "Connection destroyed."] :=
  ((destroy_rejects_all_pending_and_seals 10000 "*" exampleState
    (by decide)).1 "a" "greet" rfl).2.1

/-- C8: for any set of in-flight calls with distinct ids and any arrival
order of their replies (each a Response or an ErrorMessage), every call is
settled exactly with the outcome of the message bearing its own id, and
pending entries for other ids are untouched. -/
theorem concurrent_calls_independent {V : Type} (ct : Nat) (tO : String) :
    ∀ (rs : List (String × Except String V)) (s : CallerState V),
      (rs.map Prod.fst).Nodup → s.subscribed = true →
      (∀ p ∈ rs, (findCall p.1 s.pendingCalls).isSome = true) →
      (∀ p ∈ rs,
        settlementsFor p.1
          (IframeConnection.run ct tO s (replyEvents tO rs)).2 =
          [replyOutcome p.2]) ∧
      (∀ j, (∀ p ∈ rs, p.1 ≠ j) →
        findCall j
          (IframeConnection.run ct tO s (replyEvents tO rs)).1.pendingCalls =
          findCall j s.pendingCalls) := by
  intro rs
  induction rs with
  | nil =>
    intro s _ _ _
    exact ⟨fun p hp2 => absurd hp2 (List.not_mem_nil p), fun j _ => rfl⟩
  | cons hd rest ih =>
    intro s hn hsub hp
    obtain ⟨i, x⟩ := hd
    simp only [List.map_cons] at hn
    obtain ⟨hnotin, hn2⟩ := List.nodup_cons.mp hn
    have hq0 : (findCall i s.pendingCalls).isSome = true := hp (i, x) (by simp)
    obtain ⟨mth, hmth⟩ := Option.isSome_iff_exists.mp hq0
    have hstep := step_reply ct tO s i x mth hmth hsub
    have hkeyne : ∀ p ∈ rest, p.1 ≠ i := by
      intro p hpm hpe
      exact hnotin (hpe ▸ List.mem_map_of_mem Prod.fst hpm)
    have hp1 : ∀ p ∈ rest,
        (findCall p.1 (dropCall i s.pendingCalls)).isSome = true := by
      intro p hpm
      rw [findCall_dropCall_ne _ (Ne.symm (hkeyne p hpm))]
      exact hp p (List.mem_cons_of_mem _ hpm)
    obtain ⟨ih1, ih2⟩ :=
      ih { s with pendingCalls := dropCall i s.pendingCalls } hn2 hsub hp1
    constructor
    · intro p hpm
      rcases List.mem_cons.mp hpm with heq | hmem
      · rw [heq]
        rw [show replyEvents tO ((i, x) :: rest) =
            CEvent.recv tO (brandedDatum (replyMessage i x)) ::
              replyEvents tO rest from rfl,
          run_cons, hstep]
        show settlementsFor i
          ([Action.cancelTimer i, Action.settle i (replyOutcome x)] ++ _) =
          [replyOutcome x]
        rw [settlementsFor_append]
        have hdead := run_dead ct tO (replyEvents tO rest)
          { s with pendingCalls := dropCall i s.pendingCalls } i
          (findCall_dropCall_self i s.pendingCalls)
          (replyEvents_no_call tO i rest)
        rw [hdead.1]
        simp [settlementsFor_pair]
      · have hne : p.1 ≠ i := hkeyne p hmem
        rw [show replyEvents tO ((i, x) :: rest) =
            CEvent.recv tO (brandedDatum (replyMessage i x)) ::
              replyEvents tO rest from rfl,
          run_cons, hstep]
        show settlementsFor p.1
          ([Action.cancelTimer i, Action.settle i (replyOutcome x)] ++ _) =
          [replyOutcome p.2]
        rw [settlementsFor_append, settlementsFor_pair]
        rw [if_neg fun hc => hne hc.symm, List.nil_append]
        exact ih1 p hmem
    · intro j hj
      have hij : i ≠ j := hj (i, x) (by simp)
      rw [show replyEvents tO ((i, x) :: rest) =
          CEvent.recv tO (brandedDatum (replyMessage i x)) ::
            replyEvents tO rest from rfl,
        run_cons, hstep]
      show findCall j
        (IframeConnection.run ct tO
          { s with pendingCalls := dropCall i s.pendingCalls }
          (replyEvents tO rest)).1.pendingCalls = findCall j s.pendingCalls
      rw [ih2 j (fun p hpm => hj p (List.mem_cons_of_mem _ hpm))]
      exact findCall_dropCall_ne _ hij

/-- Witness for C8: three calls in flight; replies arrive in the reverse of
send order; the first-sent call still settles with its own result. -/
theorem concurrent_calls_independent_witness :
    settlementsFor "i1"
      (IframeConnection.run 10000 "*" exampleState3
        (replyEvents "*" exampleReplies)).2 = [Settlement.resolved 10] :=
  ((concurrent_calls_independent 10000 "*" exampleReplies exampleState3
      (by decide) rfl (by decide)).1 ("i1", Except.ok 10)
    (by simp [exampleReplies]))

end RPCiFrame
